import Mathlib

/-!
Verification of the yield-table core of `openyieldtables`.

The development shallowly embeds `src/openyieldtables/yieldtables.py` and the
request handlers of `api/v1/yieldtables.py`.  CSV files are modelled as lists
of raw rows whose cells carry an abstract parse status; Python floats are
modelled as rationals, the Python `None` value and the IEEE `nan` produced by
`numpy` on a `None` input are both modelled as `Option.none`; every fallible
Python function returns `Except PyErr`, where `PyErr.valueError` models the
`ValueError` exceptions the module raises or lets propagate.
-/

deriving instance DecidableEq for Except

/-- A raw CSV cell, abstracted by how Python's `int` and `float` parse it:
an integer literal, a numeric literal that is not an integer, a non-empty
non-numeric string, or an empty/missing cell. -/
inductive Cell where
  | intCell (n : Int)
  | fracCell (q : ℚ)
  | strCell
  | emptyCell
deriving DecidableEq

/-- Python `int(cell)`: succeeds exactly on integer literals. -/
def pyInt : Cell → Option Int
  | .intCell n => some n
  | _ => none

/-- Python `float(cell)`: succeeds exactly on numeric literals. -/
def pyFloat : Cell → Option ℚ
  | .intCell n => some (n : ℚ)
  | .fracCell q => some q
  | _ => none

/-- Python truthiness of the raw cell string: every non-empty string is
truthy, the empty or missing cell is falsy. -/
def truthy : Cell → Bool
  | .emptyCell => false
  | _ => true

/-- The exception kind raised by the module: every failure in
`yieldtables.py` is a `ValueError` (either raised explicitly or raised by
`int`/`float` on a malformed literal). -/
inductive PyErr where
  | valueError (msg : String)
deriving DecidableEq

/-- Message of the `ValueError` raised by `int()` on a malformed literal. -/
def intParseMsg : String := "invalid literal for int() with base 10"

/-- Message of the `ValueError` raised by `float()` on a malformed literal. -/
def floatParseMsg : String := "could not convert string to float"

/-- Message of the `ValueError` raised when a table id is missing from the
metadata file (line 120 of `yieldtables.py`). -/
def tableNotFoundMsg (id : Int) : String :=
  "Yield table with ID " ++ toString id ++ " not found."

/-- Message of the `ValueError` raised when a bracketing yield class is not
tabulated (line 274 of `yieldtables.py`). -/
def classNotFoundMsg (yield_class : Int) (id : Int) : String :=
  "Yield class " ++ toString yield_class ++ " not found in yield table " ++
    toString id ++ "."

/-- Modelled from the spec: `parse_float` lives in `openyieldtables/utils.py`,
which is not among the provided sources.  Per spec section 4.3 step 4 it
parses an optional floating-point value where an empty, missing, or
non-numeric cell yields "absent" rather than raising. -/
def parse_float (c : Cell) : Option ℚ := pyFloat c

/-- Function `safe_float` of `yieldtables.py` (lines 277-281): `float(value)` with a
default of `0.0` when the conversion raises; on an already-parsed optional
float it maps `None` to the default and keeps any numeric value. -/
def safe_float (v : Option ℚ) : ℚ :=
  match v with
  | some q => q
  | none => 0

/-- One parsed data row of `yield_tables.csv` (model of the pydantic
`YieldClassRow`). -/
structure YieldClassRow where
  age : Int
  dominant_height : Option ℚ
  average_height : Option ℚ
  dbh : Option ℚ
  taper : Option ℚ
  trees_per_ha : Option ℚ
  basal_area : Option ℚ
  volume_per_ha : Option ℚ
  average_annual_age_increment : Option ℚ
  total_growth_performance : Option ℚ
  current_annual_increment : Option ℚ
  mean_annual_increment : Option ℚ
deriving DecidableEq

/-- A raw record of `yield_tables.csv`, one `Cell` per declared column. -/
structure DataCSVRow where
  id : Cell
  yield_class : Cell
  age : Cell
  dominant_height : Cell
  average_height : Cell
  dbh : Cell
  taper : Cell
  trees_per_ha : Cell
  basal_area : Cell
  volume_per_ha : Cell
  average_annual_age_increment : Cell
  total_growth_performance : Cell
  current_annual_increment : Cell
  mean_annual_increment : Cell
deriving DecidableEq

/-- A raw record of `yield_tables_meta.csv`.  Textual columns are carried as
strings (the code never parses them); the numeric columns `id`,
`yield_class_step` and `age_step` are carried as cells. -/
structure MetaCSVRow where
  id : Cell
  title : String
  country_codes : String
  type : Option String
  source : String
  link : String
  yield_class_step : Cell
  age_step : Cell
  tree_type : Option String
deriving DecidableEq

/-- Model of the pydantic `YieldTableMeta`. -/
structure YieldTableMeta where
  id : Int
  title : String
  country_codes : List String
  type : Option String
  source : String
  link : String
  yield_class_step : Option ℚ
  age_step : Option Int
  tree_type : Option String
  available_columns : List String
deriving DecidableEq

/-- Model of the pydantic `YieldClass`: the yield-class key (an int or float
in Python, a rational here, matching Python's cross-type numeric equality
of dict keys) and its rows. -/
structure YieldClass where
  yield_class : ℚ
  rows : List YieldClassRow
deriving DecidableEq

/-- Model of the pydantic `YieldTableData`. -/
structure YieldTableData where
  yield_classes : List YieldClass
deriving DecidableEq

/-- Model of the pydantic `YieldTable`.  The Python model spreads the meta
fields next to `data`; we keep them nested, which is the same information. -/
structure YieldTable where
  meta : YieldTableMeta
  data : YieldTableData
deriving DecidableEq

/-- Python `s.split(",")` on characters: splitting on every comma, keeping
empty fragments. -/
def splitCommaChars : List Char → List (List Char)
  | [] => [[]]
  | c :: cs =>
    let rest := splitCommaChars cs
    if c = ',' then [] :: rest
    else
      match rest with
      | [] => [[c]]
      | g :: gs => (c :: g) :: gs

/-- Python `s.split(",")`. -/
def splitComma (s : String) : List String :=
  (splitCommaChars s.data).map (fun cs => String.mk cs)

/-- The `country_codes` handling of `get_yield_tables_meta` (lines 64-68):
split on commas when the string is non-empty, else the empty list. -/
def parseCountryCodes (s : String) : List String :=
  if s = "" then [] else splitComma s

/-- The optional-float metadata parse of lines 72-76:
`float(cell) if cell else None`.  Only a falsy (empty/missing) cell yields
`None`; a truthy non-numeric cell makes `float` raise. -/
def parseOptFloatCell (c : Cell) : Except PyErr (Option ℚ) :=
  if truthy c then
    match pyFloat c with
    | some q => .ok (some q)
    | none => .error (.valueError floatParseMsg)
  else .ok none

/-- The optional-int metadata parse of lines 77-79:
`int(cell) if cell else None`. -/
def parseOptIntCell (c : Cell) : Except PyErr (Option Int) :=
  if truthy c then
    match pyInt c with
    | some n => .ok (some n)
    | none => .error (.valueError intParseMsg)
  else .ok none

/-- The eleven optional data columns of `yield_tables.csv`, in the declared
order of the source header. -/
def optionalColumns : List String :=
  ["dominant_height", "average_height", "dbh", "taper", "trees_per_ha",
   "basal_area", "volume_per_ha", "average_annual_age_increment",
   "total_growth_performance", "current_annual_increment",
   "mean_annual_increment"]

/-- The cell of a data record under a given column name. -/
def getCol (r : DataCSVRow) : String → Cell
  | "id" => r.id
  | "yield_class" => r.yield_class
  | "age" => r.age
  | "dominant_height" => r.dominant_height
  | "average_height" => r.average_height
  | "dbh" => r.dbh
  | "taper" => r.taper
  | "trees_per_ha" => r.trees_per_ha
  | "basal_area" => r.basal_area
  | "volume_per_ha" => r.volume_per_ha
  | "average_annual_age_increment" => r.average_annual_age_increment
  | "total_growth_performance" => r.total_growth_performance
  | "current_annual_increment" => r.current_annual_increment
  | "mean_annual_increment" => r.mean_annual_increment
  | _ => .emptyCell

/-- Modelled from the spec: `find_available_columns` lives in
`openyieldtables/utils.py`, which is not among the provided sources.  Per
spec section 4.1 it returns the column names, in source-declared order, for
which at least one row whose key column equals the key value has a non-empty
value, always prefixed by the structural columns. -/
def find_available_columns (dataRows : List DataCSVRow) (key : Int) :
    List String :=
  ["id", "yield_class", "age"] ++
    optionalColumns.filter
      (fun name =>
        dataRows.any (fun r => pyInt r.id == some key && truthy (getCol r name)))

/-- Building one `YieldTableMeta` from a raw metadata record (the body of the
loop of `get_yield_tables_meta`, lines 58-90).  The numeric cells are parsed
in the evaluation order of the Python dict literal: `id`, then
`yield_class_step`, then `age_step`. -/
def buildMeta (dataRows : List DataCSVRow) (r : MetaCSVRow) :
    Except PyErr YieldTableMeta :=
  match pyInt r.id with
  | none => .error (.valueError intParseMsg)
  | some i =>
    match parseOptFloatCell r.yield_class_step with
    | .error e => .error e
    | .ok ycs =>
      match parseOptIntCell r.age_step with
      | .error e => .error e
      | .ok ags =>
        .ok { id := i, title := r.title,
              country_codes := parseCountryCodes r.country_codes,
              type := r.type, source := r.source, link := r.link,
              yield_class_step := ycs, age_step := ags,
              tree_type := r.tree_type,
              available_columns := find_available_columns dataRows i }

/-- Function `get_yield_tables_meta` (the spec's `list_meta`): one `YieldTableMeta`
per metadata record, in file order, failing on the first malformed record. -/
def get_yield_tables_meta (metaRows : List MetaCSVRow)
    (dataRows : List DataCSVRow) : Except PyErr (List YieldTableMeta) :=
  match metaRows with
  | [] => .ok []
  | r :: rest =>
    match buildMeta dataRows r with
    | .error e => .error e
    | .ok m =>
      match get_yield_tables_meta rest dataRows with
      | .error e => .error e
      | .ok ms => .ok (m :: ms)

/-- Function `get_yield_table_meta` (the spec's `get_meta`): first exact id match in
the result of `get_yield_tables_meta`, else the not-found `ValueError`. -/
def get_yield_table_meta (metaRows : List MetaCSVRow)
    (dataRows : List DataCSVRow) (id : Int) : Except PyErr YieldTableMeta :=
  match get_yield_tables_meta metaRows dataRows with
  | .error e => .error e
  | .ok ms =>
    match ms.find? (fun m => m.id == id) with
    | some m => .ok m
    | none => .error (.valueError (tableNotFoundMsg id))

/-- The filtering comprehension of line 147:
`[row for row in reader if int(row["id"]) == id]`.  Every record's id cell is
parsed; the first malformed one raises. -/
def filterById (dataRows : List DataCSVRow) (id : Int) :
    Except PyErr (List DataCSVRow) :=
  match dataRows with
  | [] => .ok []
  | r :: rest =>
    match pyInt r.id with
    | none => .error (.valueError intParseMsg)
    | some n =>
      match filterById rest id with
      | .error e => .error e
      | .ok rs => .ok (if n = id then r :: rs else rs)

/-- The yield-class key parse of lines 152-156: `int` first, and on a
`ValueError` fall back to `float`, whose own `ValueError` propagates. -/
def parseYieldClass (c : Cell) : Except PyErr ℚ :=
  match pyInt c with
  | some n => .ok (n : ℚ)
  | none =>
    match pyFloat c with
    | some q => .ok q
    | none => .error (.valueError floatParseMsg)

/-- Building one `YieldClassRow` (lines 159-182): `age` must parse as an
integer, the eleven measurement columns are parsed as optional floats. -/
def buildRow (r : DataCSVRow) : Except PyErr YieldClassRow :=
  match pyInt r.age with
  | none => .error (.valueError intParseMsg)
  | some a =>
    .ok { age := a,
          dominant_height := parse_float r.dominant_height,
          average_height := parse_float r.average_height,
          dbh := parse_float r.dbh,
          taper := parse_float r.taper,
          trees_per_ha := parse_float r.trees_per_ha,
          basal_area := parse_float r.basal_area,
          volume_per_ha := parse_float r.volume_per_ha,
          average_annual_age_increment :=
            parse_float r.average_annual_age_increment,
          total_growth_performance := parse_float r.total_growth_performance,
          current_annual_increment := parse_float r.current_annual_increment,
          mean_annual_increment := parse_float r.mean_annual_increment }

/-- Appending a row under a key in the insertion-ordered grouping dict
(lines 157-159): append to the existing group, else add a new group at the
end, exactly as a Python dict preserves insertion order. -/
def groupInsert (acc : List (ℚ × List YieldClassRow)) (k : ℚ)
    (row : YieldClassRow) : List (ℚ × List YieldClassRow) :=
  match acc with
  | [] => [(k, [row])]
  | (k', rs) :: rest =>
    if k' = k then (k', rs ++ [row]) :: rest
    else (k', rs) :: groupInsert rest k row

/-- The grouping loop of lines 151-182 over the filtered records, carrying
the insertion-ordered dict. -/
def buildGroupsAux (acc : List (ℚ × List YieldClassRow)) :
    List DataCSVRow → Except PyErr (List (ℚ × List YieldClassRow))
  | [] => .ok acc
  | r :: rest =>
    match parseYieldClass r.yield_class with
    | .error e => .error e
    | .ok k =>
      match buildRow r with
      | .error e => .error e
      | .ok row => buildGroupsAux (groupInsert acc k row) rest

/-- Function `get_yield_table` (the spec's `get_table`): resolve the meta record,
filter the data records by id, group them by yield class, and assemble the
table (lines 123-192). -/
def get_yield_table (metaRows : List MetaCSVRow) (dataRows : List DataCSVRow)
    (id : Int) : Except PyErr YieldTable :=
  match get_yield_table_meta metaRows dataRows id with
  | .error e => .error e
  | .ok m =>
    match filterById dataRows id with
    | .error e => .error e
    | .ok filtered =>
      match buildGroupsAux [] filtered with
      | .error e => .error e
      | .ok grouped =>
        .ok { meta := m,
              data := ⟨grouped.map (fun p => ⟨p.1, p.2⟩)⟩ }

/-- Function `get_yield_table_of_class` (lines 265-274): the row list of the first
yield class equal to the requested integer, else the class-not-found
`ValueError`. -/
def get_yield_table_of_class (metaRows : List MetaCSVRow)
    (dataRows : List DataCSVRow) (id : Int) (yield_class : Int) :
    Except PyErr (List YieldClassRow) :=
  match get_yield_table metaRows dataRows id with
  | .error e => .error e
  | .ok t =>
    match t.data.yield_classes.find?
        (fun yc => yc.yield_class == (yield_class : ℚ)) with
    | some yc => .ok yc.rows
    | none => .error (.valueError (classNotFoundMsg yield_class id))

/-- Python `int(target)` on a float (line 213): truncation toward zero. -/
def pyTrunc (q : ℚ) : Int := q.num.tdiv q.den

/-- The lower bracketing class of line 213: `int(target_yield_class)`. -/
def lowerClass (target : ℚ) : Int := pyTrunc target

/-- The upper bracketing class of line 214: `lower_yield_class + 1`. -/
def upperClass (target : ℚ) : Int := lowerClass target + 1

/-- Modelled behaviour of `np.interp(x, [l, u], [f0, f1])` with `l < u`:
numpy clamps to the endpoint value left of `l` and right of `u`, returns
the endpoint value on an exact hit of `l`, and otherwise interpolates with
slope `(f1 - f0) / (u - l)`; a `None` endpoint becomes `nan` (modelled as
`none`) and `nan` propagates through the strict-interior computation. -/
def npInterp (x : ℚ) (l u : Int) (f0 f1 : Option ℚ) : Option ℚ :=
  if x ≤ (l : ℚ) then f0
  else if (u : ℚ) ≤ x then f1
  else
    match f0, f1 with
    | some a, some b => some (a + (b - a) / ((u : ℚ) - (l : ℚ)) * (x - (l : ℚ)))
    | _, _ => none

/-- One interpolated output row (lines 223-260): `age` from the lower row,
every measurement field two-point interpolated, with `safe_float` applied
only to `current_annual_increment` (line 254). -/
def interpRow (target : ℚ) (l u : Int) (lrow urow : YieldClassRow) :
    YieldClassRow :=
  { age := lrow.age,
    dominant_height := npInterp target l u lrow.dominant_height urow.dominant_height,
    average_height := npInterp target l u lrow.average_height urow.average_height,
    dbh := npInterp target l u lrow.dbh urow.dbh,
    taper := npInterp target l u lrow.taper urow.taper,
    trees_per_ha := npInterp target l u lrow.trees_per_ha urow.trees_per_ha,
    basal_area := npInterp target l u lrow.basal_area urow.basal_area,
    volume_per_ha := npInterp target l u lrow.volume_per_ha urow.volume_per_ha,
    average_annual_age_increment :=
      npInterp target l u lrow.average_annual_age_increment
        urow.average_annual_age_increment,
    total_growth_performance :=
      npInterp target l u lrow.total_growth_performance
        urow.total_growth_performance,
    current_annual_increment :=
      npInterp target l u (some (safe_float lrow.current_annual_increment))
        (some (safe_float urow.current_annual_increment)),
    mean_annual_increment :=
      npInterp target l u lrow.mean_annual_increment
        urow.mean_annual_increment }

/-- Function `get_interpolated_yield_table` (the spec's `get_interpolated`,
lines 195-262): fetch the two bracketing classes and interpolate the
positionally zipped row pairs. -/
def get_interpolated_yield_table (metaRows : List MetaCSVRow)
    (dataRows : List DataCSVRow) (id : Int) (target : ℚ) :
    Except PyErr YieldClass :=
  match get_yield_table_of_class metaRows dataRows id (lowerClass target) with
  | .error e => .error e
  | .ok lowerRows =>
    match get_yield_table_of_class metaRows dataRows id (upperClass target) with
    | .error e => .error e
    | .ok upperRows =>
      .ok ⟨target,
           List.zipWith (interpRow target (lowerClass target) (upperClass target))
             lowerRows upperRows⟩

/-- An HTTP-layer response: a rendered body or a 404 with a message. -/
inductive ApiResponse (α : Type) where
  | ok (body : α)
  | notFound (message : String)
deriving DecidableEq

/-- The 404 detail message of `read_yield_table_data` (lines 30-35 of
`api/v1/yieldtables.py`). -/
def apiTableMsg (id : Int) : String :=
  "Yield table with ID " ++ toString id ++ " not found."

/-- The 404 detail message of `read_interpolated_yield_table_data`
(lines 54-59 of `api/v1/yieldtables.py`). -/
def apiClassMsg (v : ℚ) : String :=
  "Yield class " ++ toString v ++ " not found."

/-- Handler `read_yield_table_data`: any `ValueError` from `get_yield_table` is
mapped to the same 404 response. -/
def read_yield_table_data (metaRows : List MetaCSVRow)
    (dataRows : List DataCSVRow) (id : Int) : ApiResponse YieldTable :=
  match get_yield_table metaRows dataRows id with
  | .ok t => .ok t
  | .error (.valueError _) => .notFound (apiTableMsg id)

/-- Handler `read_interpolated_yield_table_data`: any `ValueError` from
`get_interpolated_yield_table` is mapped to the same 404 response. -/
def read_interpolated_yield_table_data (metaRows : List MetaCSVRow)
    (dataRows : List DataCSVRow) (id : Int) (v : ℚ) : ApiResponse YieldClass :=
  match get_interpolated_yield_table metaRows dataRows id v with
  | .ok yc => .ok yc
  | .error (.valueError _) => .notFound (apiClassMsg v)

/-! ### Concrete fixtures

Small concrete metadata and data files used to evaluate the embedded
functions at explicit inputs.  The rational `13/2` is spelled as an explicit
reduced fraction so that all fixture computations stay kernel-reducible. -/

/-- The fractional target `6.5`, as a reduced fraction. -/
def halfThirteen : ℚ := ⟨13, 2, by norm_num, by norm_num⟩

/-- The fractional target `2.5`, as a reduced fraction. -/
def fiveHalves : ℚ := ⟨5, 2, by norm_num, by norm_num⟩

/-- The fractional target `-0.5`, as a reduced fraction. -/
def negHalf : ℚ := ⟨-1, 2, by norm_num, by norm_num⟩

/-- A metadata record for table 1 matching the repository's test data. -/
def exMetaRow : MetaCSVRow :=
  { id := .intCell 1, title := "Fichte Hochgebirge", country_codes := "AT,DE",
    type := some "dgz_100", source := "Marschall", link := "",
    yield_class_step := .intCell 1, age_step := .intCell 10,
    tree_type := some "spruce" }

/-- A second metadata record, for table 2. -/
def exMetaRow2 : MetaCSVRow :=
  { id := .intCell 2, title := "Fichte Bruck", country_codes := "AT",
    type := some "dgz_100", source := "Marschall", link := "",
    yield_class_step := .intCell 1, age_step := .intCell 10,
    tree_type := some "spruce" }

/-- The fixture metadata file. -/
def exMeta : List MetaCSVRow := [exMetaRow, exMetaRow2]

/-- A data record with every measurement present except
`current_annual_increment`. -/
def mkRow (i : Int) (yc : Cell) (age : Int) (dh : Int) : DataCSVRow :=
  { id := .intCell i, yield_class := yc, age := .intCell age,
    dominant_height := .intCell dh, average_height := .intCell 3,
    dbh := .intCell 4, taper := .intCell 2, trees_per_ha := .intCell 100,
    basal_area := .intCell 30, volume_per_ha := .intCell 200,
    average_annual_age_increment := .intCell 5,
    total_growth_performance := .intCell 6,
    current_annual_increment := .emptyCell,
    mean_annual_increment := .intCell 7 }

/-- The fixture data file: table 1 with classes 6 and 7 at ages 10 and 20
(dominant heights 5, 8 and 6, 9), plus one record of table 2. -/
def exData : List DataCSVRow :=
  [mkRow 1 (.intCell 6) 10 5, mkRow 1 (.intCell 6) 20 8,
   mkRow 1 (.intCell 7) 10 6, mkRow 1 (.intCell 7) 20 9,
   mkRow 2 (.intCell 6) 10 50]

/-- A placeholder metadata value, used only as a `getD` default. -/
def noMeta : YieldTableMeta :=
  { id := 0, title := "", country_codes := [], type := none, source := "",
    link := "", yield_class_step := none, age_step := none, tree_type := none,
    available_columns := [] }

/-- The table the loader assembles for id 1 from the fixture files. -/
def exTable : YieldTable :=
  ((get_yield_table exMeta exData 1).toOption).getD ⟨noMeta, ⟨[]⟩⟩

/-- The row list of fixture class 6. -/
def exLowerRows : List YieldClassRow :=
  ((get_yield_table_of_class exMeta exData 1 6).toOption).getD []

/-- The row list of fixture class 7. -/
def exUpperRows : List YieldClassRow :=
  ((get_yield_table_of_class exMeta exData 1 7).toOption).getD []

/-- The metadata list built from the fixture files. -/
def exMetas : List YieldTableMeta :=
  ((get_yield_tables_meta exMeta exData).toOption).getD []

/-- A class-6 record whose `dominant_height` cell is empty. -/
def cRow6 : DataCSVRow :=
  { mkRow 1 (.intCell 6) 10 0 with dominant_height := .emptyCell }

/-- A class-7 record with `dominant_height` 9. -/
def cRow7 : DataCSVRow := mkRow 1 (.intCell 7) 10 9

/-- A data file in which the class-6 record is missing its
`dominant_height`. -/
def cData : List DataCSVRow := [cRow6, cRow7]

/-- A metadata record whose `yield_class_step` cell is non-empty but not
numeric. -/
def badStepMetaRow : MetaCSVRow :=
  { exMetaRow with id := .intCell 7, yield_class_step := .strCell }

/-- A data record of table 1 whose `age` cell is non-empty but not an
integer literal. -/
def badAgeRow : DataCSVRow :=
  { mkRow 1 (.intCell 6) 10 5 with age := .strCell }

/-- A data file containing a malformed `age` cell for table 1. -/
def dataBadAge : List DataCSVRow := [badAgeRow]

/-- A metadata record with empty step cells. -/
def emptyStepMetaRow : MetaCSVRow :=
  { exMetaRow with
      id := .intCell 9
      yield_class_step := .emptyCell
      age_step := .emptyCell }

/-- A metadata record with an empty `yield_class_step` but a parsable
`age_step`. -/
def mixedStepMetaRow : MetaCSVRow :=
  { exMetaRow with
      id := .intCell 11
      yield_class_step := .emptyCell
      age_step := .intCell 10 }

/-- A metadata record with a parsable `yield_class_step` but a non-empty
non-numeric `age_step`. -/
def badAgeStepMetaRow : MetaCSVRow :=
  { exMetaRow with
      id := .intCell 12
      yield_class_step := .intCell 1
      age_step := .strCell }

/-- The interpolated class the fixture produces for target `6.5`. -/
def exInterp : YieldClass :=
  ((get_interpolated_yield_table exMeta exData 1 halfThirteen).toOption).getD
    ⟨0, []⟩

/-- The first metadata element the fixture produces. -/
def exMeta1 : YieldTableMeta := exMetas.headD noMeta

/-- A parsed row whose `dominant_height` is absent. -/
def wRow6 : YieldClassRow :=
  { age := 10, dominant_height := none, average_height := some 3,
    dbh := some 4, taper := some 2, trees_per_ha := some 100,
    basal_area := some 30, volume_per_ha := some 200,
    average_annual_age_increment := some 5,
    total_growth_performance := some 6, current_annual_increment := none,
    mean_annual_increment := some 7 }

/-- A parsed row with `dominant_height` 9. -/
def wRow7 : YieldClassRow :=
  { age := 10, dominant_height := some 9, average_height := some 3,
    dbh := some 4, taper := some 2, trees_per_ha := some 100,
    basal_area := some 30, volume_per_ha := some 200,
    average_annual_age_increment := some 5,
    total_growth_performance := some 6, current_annual_increment := none,
    mean_annual_increment := some 7 }

/-! ### Specification-side helpers

Pure recomputations of the grouping pass, used to state what
`get_yield_table` produces: the key sequence of the filtered records, the
order-preserving per-key row selection, and first-seen deduplication. -/

/-- The value stored under a key in the insertion-ordered grouping dict
(first entry with that key; the keys are kept duplicate-free by
`groupInsert`). -/
def groupRows (gs : List (ℚ × List YieldClassRow)) (k : ℚ) :
    List YieldClassRow :=
  match gs with
  | [] => []
  | (k', rs) :: rest => if k' = k then rs else groupRows rest k

/-- First-seen deduplication of a key sequence, relative to already-seen
keys: the order Python dict insertion produces. -/
def firstSeenFrom (seen : List ℚ) : List ℚ → List ℚ
  | [] => []
  | k :: ks =>
    if k ∈ seen then firstSeenFrom seen ks
    else k :: firstSeenFrom (k :: seen) ks

/-- The parsed yield-class key of every record, in source order. -/
def keyList : List DataCSVRow → Except PyErr (List ℚ)
  | [] => .ok []
  | r :: rest =>
    match parseYieldClass r.yield_class with
    | .error e => .error e
    | .ok k =>
      match keyList rest with
      | .error e => .error e
      | .ok ks => .ok (k :: ks)

/-- The rows built, in source order, from exactly the records whose parsed
yield-class key equals `k` (duplicates preserved). -/
def buildRowsFor (dataRows : List DataCSVRow) (k : ℚ) :
    Except PyErr (List YieldClassRow) :=
  match dataRows with
  | [] => .ok []
  | r :: rest =>
    match parseYieldClass r.yield_class with
    | .error e => .error e
    | .ok k' =>
      match buildRow r with
      | .error e => .error e
      | .ok row =>
        match buildRowsFor rest k with
        | .error e => .error e
        | .ok rs => .ok (if k' = k then row :: rs else rs)

/-- Key `k` is a tabulated yield class of the table. -/
def hasClass (t : YieldTable) (k : Int) : Prop :=
  ∃ yc ∈ t.data.yield_classes, yc.yield_class = (k : ℚ)

/-- The eleven measurement-field accessors of a `YieldClassRow`. -/
def measurementGetters : List (YieldClassRow → Option ℚ) :=
  [YieldClassRow.dominant_height, YieldClassRow.average_height,
   YieldClassRow.dbh, YieldClassRow.taper, YieldClassRow.trees_per_ha,
   YieldClassRow.basal_area, YieldClassRow.volume_per_ha,
   YieldClassRow.average_annual_age_increment,
   YieldClassRow.total_growth_performance,
   YieldClassRow.current_annual_increment,
   YieldClassRow.mean_annual_increment]

/-- The measurement-field accessors other than `current_annual_increment`:
the fields the interpolation passes to `np.interp` without `safe_float`. -/
def rawMeasurementGetters : List (YieldClassRow → Option ℚ) :=
  [YieldClassRow.dominant_height, YieldClassRow.average_height,
   YieldClassRow.dbh, YieldClassRow.taper, YieldClassRow.trees_per_ha,
   YieldClassRow.basal_area, YieldClassRow.volume_per_ha,
   YieldClassRow.average_annual_age_increment,
   YieldClassRow.total_growth_performance,
   YieldClassRow.mean_annual_increment]

/-! ### Helper lemmas -/

theorem halfThirteen_eq : halfThirteen = 13 / 2 := by
  rw [halfThirteen, Rat.mk'_eq_divInt, Rat.divInt_eq_div]; norm_num

theorem negHalf_eq : negHalf = -1 / 2 := by
  rw [negHalf, Rat.mk'_eq_divInt, Rat.divInt_eq_div]; norm_num

theorem pyTrunc_eq_floor_of_nonneg (q : ℚ) (h : 0 ≤ q) : pyTrunc q = ⌊q⌋ := by
  rw [Rat.floor_def, pyTrunc, Int.tdiv_eq_ediv (Rat.num_nonneg.mpr h) (Int.ofNat_nonneg q.den)]

theorem npInterp_some_between {x : ℚ} {l u : Int} {a b : ℚ}
    (h1 : (l : ℚ) < x) (h2 : x < (u : ℚ)) :
    ∃ v, npInterp x l u (some a) (some b) = some v ∧
      min a b ≤ v ∧ v ≤ max a b := by
  have hd : (0 : ℚ) < (u : ℚ) - (l : ℚ) := by linarith
  have hxl : (0 : ℚ) < x - (l : ℚ) := by linarith
  have hxu : x - (l : ℚ) < (u : ℚ) - (l : ℚ) := by linarith
  refine ⟨a + (b - a) / ((u : ℚ) - (l : ℚ)) * (x - (l : ℚ)), ?_, ?_, ?_⟩
  · unfold npInterp
    rw [if_neg (not_le.mpr h1), if_neg (not_le.mpr h2)]
  · rcases le_total a b with hab | hab
    · rw [min_eq_left hab]
      have : 0 ≤ (b - a) / ((u : ℚ) - (l : ℚ)) * (x - (l : ℚ)) :=
        mul_nonneg (div_nonneg (by linarith) hd.le) hxl.le
      linarith
    · rw [min_eq_right hab]
      have hs : (b - a) / ((u : ℚ) - (l : ℚ)) ≤ 0 :=
        div_nonpos_of_nonpos_of_nonneg (by linarith) hd.le
      have : (b - a) / ((u : ℚ) - (l : ℚ)) * ((u : ℚ) - (l : ℚ)) ≤
          (b - a) / ((u : ℚ) - (l : ℚ)) * (x - (l : ℚ)) :=
        mul_le_mul_of_nonpos_left hxu.le hs
      rw [div_mul_cancel₀ _ hd.ne'] at this
      linarith
  · rcases le_total a b with hab | hab
    · rw [max_eq_right hab]
      have hs : 0 ≤ (b - a) / ((u : ℚ) - (l : ℚ)) :=
        div_nonneg (by linarith) hd.le
      have : (b - a) / ((u : ℚ) - (l : ℚ)) * (x - (l : ℚ)) ≤
          (b - a) / ((u : ℚ) - (l : ℚ)) * ((u : ℚ) - (l : ℚ)) :=
        mul_le_mul_of_nonneg_left hxu.le hs
      rw [div_mul_cancel₀ _ hd.ne'] at this
      linarith
    · rw [max_eq_left hab]
      have : (b - a) / ((u : ℚ) - (l : ℚ)) * (x - (l : ℚ)) ≤ 0 :=
        mul_nonpos_of_nonpos_of_nonneg
          (div_nonpos_of_nonpos_of_nonneg (by linarith) hd.le) hxl.le
      linarith

theorem npInterp_none_left {x : ℚ} {l u : Int} {f1 : Option ℚ}
    (h1 : (l : ℚ) < x) (h2 : x < (u : ℚ)) : npInterp x l u none f1 = none := by
  unfold npInterp
  rw [if_neg (not_le.mpr h1), if_neg (not_le.mpr h2)]

theorem npInterp_none_right {x : ℚ} {l u : Int} {f0 : Option ℚ}
    (h1 : (l : ℚ) < x) (h2 : x < (u : ℚ)) : npInterp x l u f0 none = none := by
  unfold npInterp
  rw [if_neg (not_le.mpr h1), if_neg (not_le.mpr h2)]
  cases f0 <;> rfl

theorem interp_rows_eq {metaRows : List MetaCSVRow} {dataRows : List DataCSVRow}
    {id : Int} {target : ℚ} {lrows urows : List YieldClassRow}
    (hl : get_yield_table_of_class metaRows dataRows id (lowerClass target) = .ok lrows)
    (hu : get_yield_table_of_class metaRows dataRows id (upperClass target) = .ok urows) :
    get_interpolated_yield_table metaRows dataRows id target =
      .ok ⟨target,
           List.zipWith (interpRow target (lowerClass target) (upperClass target))
             lrows urows⟩ := by
  unfold get_interpolated_yield_table
  rw [hl, hu]

theorem groupInsert_fst (acc : List (ℚ × List YieldClassRow)) (k : ℚ)
    (row : YieldClassRow) :
    (groupInsert acc k row).map Prod.fst =
      if k ∈ acc.map Prod.fst then acc.map Prod.fst
      else acc.map Prod.fst ++ [k] := by
  induction acc with
  | nil => simp [groupInsert]
  | cons p rest ih =>
    obtain ⟨k', rs⟩ := p
    by_cases hk : k' = k
    · subst hk
      simp [groupInsert]
    · simp only [groupInsert, if_neg hk, List.map_cons, ih, List.mem_cons]
      by_cases hmem : k ∈ rest.map Prod.fst
      · simp [hmem, Ne.symm hk]
      · simp [hmem, Ne.symm hk]

theorem groupRows_groupInsert (acc : List (ℚ × List YieldClassRow)) (k k₀ : ℚ)
    (row : YieldClassRow) :
    groupRows (groupInsert acc k row) k₀ =
      if k₀ = k then groupRows acc k₀ ++ [row] else groupRows acc k₀ := by
  induction acc with
  | nil =>
    simp only [groupInsert, groupRows]
    by_cases h : k₀ = k
    · subst h; simp
    · rw [if_neg (Ne.symm h), if_neg h]
  | cons p rest ih =>
    obtain ⟨k', rs⟩ := p
    by_cases hk : k' = k
    · subst hk
      simp only [groupInsert, if_pos rfl, groupRows]
      by_cases h0 : k' = k₀
      · rw [if_pos h0, if_pos h0.symm, if_pos h0]
      · rw [if_neg h0, if_neg (Ne.symm h0), if_neg h0]
    · simp only [groupInsert, if_neg hk, groupRows]
      by_cases h0 : k' = k₀
      · have hne : ¬ k₀ = k := fun hh => hk (h0.trans hh)
        rw [if_pos h0, if_neg hne, if_pos h0]
      · rw [if_neg h0, ih]
        by_cases h1 : k₀ = k
        · rw [if_pos h1, if_pos h1, if_neg h0]
        · rw [if_neg h1, if_neg h1, if_neg h0]

theorem firstSeenFrom_congr {s₁ s₂ : List ℚ} (h : ∀ x, x ∈ s₁ ↔ x ∈ s₂) :
    ∀ l : List ℚ, firstSeenFrom s₁ l = firstSeenFrom s₂ l := by
  intro l
  induction l generalizing s₁ s₂ with
  | nil => rfl
  | cons k ks ih =>
    simp only [firstSeenFrom]
    by_cases hk : k ∈ s₁
    · rw [if_pos hk, if_pos ((h k).mp hk), ih h]
    · rw [if_neg hk, if_neg (fun hh => hk ((h k).mpr hh))]
      congr 1
      refine ih (fun x => ?_)
      simp only [List.mem_cons]
      exact or_congr Iff.rfl (h x)

theorem firstSeenFrom_nodup (l : List ℚ) :
    ∀ seen, (firstSeenFrom seen l).Nodup ∧
      ∀ x ∈ firstSeenFrom seen l, x ∉ seen := by
  induction l with
  | nil => intro seen; simp [firstSeenFrom]
  | cons k ks ih =>
    intro seen
    simp only [firstSeenFrom]
    by_cases hk : k ∈ seen
    · rw [if_pos hk]; exact ih seen
    · rw [if_neg hk]
      obtain ⟨hnd, hnotin⟩ := ih (k :: seen)
      refine ⟨List.nodup_cons.mpr ⟨fun hmem => ?_, hnd⟩, ?_⟩
      · exact (hnotin k hmem) (List.mem_cons_self k seen)
      · intro x hx
        rcases List.mem_cons.mp hx with hx | hx
        · subst hx; exact hk
        · intro hxs
          exact (hnotin x hx) (List.mem_cons_of_mem k hxs)

theorem buildGroupsAux_spec :
    ∀ (rows : List DataCSVRow) (acc out : List (ℚ × List YieldClassRow)),
      buildGroupsAux acc rows = .ok out →
      (∃ ks, keyList rows = .ok ks ∧
        out.map Prod.fst =
          acc.map Prod.fst ++ firstSeenFrom (acc.map Prod.fst) ks) ∧
      (∀ k, ∃ rs, buildRowsFor rows k = .ok rs ∧
        groupRows out k = groupRows acc k ++ rs) := by
  intro rows
  induction rows with
  | nil =>
    intro acc out h
    simp only [buildGroupsAux] at h
    injection h with h
    subst h
    constructor
    · exact ⟨[], rfl, by simp [firstSeenFrom]⟩
    · intro k
      exact ⟨[], rfl, by simp [buildRowsFor]⟩
  | cons r rest ih =>
    intro acc out h
    cases hp : parseYieldClass r.yield_class with
    | error e => simp [buildGroupsAux, hp] at h
    | ok k =>
      cases hb : buildRow r with
      | error e => simp [buildGroupsAux, hp, hb] at h
      | ok row =>
        simp only [buildGroupsAux, hp, hb] at h
        obtain ⟨⟨ks, hks, hkeys⟩, hrows⟩ := ih (groupInsert acc k row) out h
        constructor
        · refine ⟨k :: ks, ?_, ?_⟩
          · simp only [keyList, hp, hks]
          · rw [hkeys, groupInsert_fst]
            simp only [firstSeenFrom]
            by_cases hmem : k ∈ acc.map Prod.fst
            · rw [if_pos hmem, if_pos hmem]
            · rw [if_neg hmem, if_neg hmem, List.append_assoc,
                List.singleton_append]
              congr 2
              exact firstSeenFrom_congr (fun x => by simp [or_comm]) ks
        · intro k₀
          obtain ⟨rs, hrs, hgr⟩ := hrows k₀
          refine ⟨if k = k₀ then row :: rs else rs, ?_, ?_⟩
          · simp only [buildRowsFor, hp, hb, hrs]
          · rw [hgr, groupRows_groupInsert]
            by_cases h0 : k₀ = k
            · rw [if_pos h0, if_pos h0.symm, List.append_assoc,
                List.singleton_append]
            · rw [if_neg h0, if_neg (Ne.symm h0)]

theorem groupRows_of_mem :
    ∀ (gs : List (ℚ × List YieldClassRow)), (gs.map Prod.fst).Nodup →
      ∀ p ∈ gs, groupRows gs p.1 = p.2 := by
  intro gs
  induction gs with
  | nil => intro _ p hp; cases hp
  | cons q rest ih =>
    intro hnd p hp
    obtain ⟨k', rs⟩ := q
    rw [List.map_cons, List.nodup_cons] at hnd
    rcases List.mem_cons.mp hp with rfl | hp'
    · simp [groupRows]
    · simp only [groupRows]
      have hk : k' ≠ p.1 := by
        intro hh
        have hmem : p.1 ∈ rest.map Prod.fst := List.mem_map_of_mem Prod.fst hp'
        rw [← hh] at hmem
        exact hnd.1 hmem
      rw [if_neg hk]
      exact ih hnd.2 p hp'

theorem filterById_mem :
    ∀ {dataRows : List DataCSVRow} {id : Int} {filtered : List DataCSVRow},
      filterById dataRows id = .ok filtered →
      ∀ r ∈ filtered, r ∈ dataRows ∧ pyInt r.id = some id := by
  intro dataRows
  induction dataRows with
  | nil =>
    intro id filtered h r hr
    simp only [filterById] at h
    injection h with h
    subst h
    cases hr
  | cons r0 rest ih =>
    intro id filtered h r hr
    cases hp : pyInt r0.id with
    | none => simp [filterById, hp] at h
    | some n =>
      simp only [filterById, hp] at h
      cases hf : filterById rest id with
      | error e => rw [hf] at h; simp at h
      | ok rs =>
        rw [hf] at h
        injection h with h
        subst h
        by_cases hn : n = id
        · rw [if_pos hn] at hr
          rcases List.mem_cons.mp hr with rfl | hr'
          · exact ⟨List.mem_cons_self _ _, by rw [hp, hn]⟩
          · obtain ⟨hmem, hid⟩ := ih hf r hr'
            exact ⟨List.mem_cons_of_mem _ hmem, hid⟩
        · rw [if_neg hn] at hr
          obtain ⟨hmem, hid⟩ := ih hf r hr
          exact ⟨List.mem_cons_of_mem _ hmem, hid⟩

theorem buildRowsFor_mem :
    ∀ {dataRows : List DataCSVRow} {k : ℚ} {rs : List YieldClassRow},
      buildRowsFor dataRows k = .ok rs →
      ∀ row ∈ rs, ∃ r ∈ dataRows, buildRow r = .ok row := by
  intro dataRows
  induction dataRows with
  | nil =>
    intro k rs h row hrow
    simp only [buildRowsFor] at h
    injection h with h
    subst h
    cases hrow
  | cons r0 rest ih =>
    intro k rs h row hrow
    cases hp : parseYieldClass r0.yield_class with
    | error e => simp [buildRowsFor, hp] at h
    | ok k' =>
      cases hb : buildRow r0 with
      | error e => simp [buildRowsFor, hp, hb] at h
      | ok row0 =>
        simp only [buildRowsFor, hp, hb] at h
        cases hf : buildRowsFor rest k with
        | error e => rw [hf] at h; simp at h
        | ok rs' =>
          rw [hf] at h
          injection h with h
          subst h
          by_cases hk : k' = k
          · rw [if_pos hk] at hrow
            rcases List.mem_cons.mp hrow with rfl | hrow'
            · exact ⟨r0, List.mem_cons_self _ _, hb⟩
            · obtain ⟨r, hr, hbr⟩ := ih hf row hrow'
              exact ⟨r, List.mem_cons_of_mem _ hr, hbr⟩
          · rw [if_neg hk] at hrow
            obtain ⟨r, hr, hbr⟩ := ih hf row hrow
            exact ⟨r, List.mem_cons_of_mem _ hr, hbr⟩

theorem get_yield_table_ok {metaRows : List MetaCSVRow}
    {dataRows : List DataCSVRow} {id : Int} {t : YieldTable}
    (h : get_yield_table metaRows dataRows id = .ok t) :
    ∃ m filtered grouped,
      get_yield_table_meta metaRows dataRows id = .ok m ∧
      filterById dataRows id = .ok filtered ∧
      buildGroupsAux [] filtered = .ok grouped ∧
      t = ⟨m, ⟨grouped.map (fun p => ⟨p.1, p.2⟩)⟩⟩ := by
  unfold get_yield_table at h
  cases hm : get_yield_table_meta metaRows dataRows id with
  | error e => simp [hm] at h
  | ok m =>
    simp only [hm] at h
    cases hf : filterById dataRows id with
    | error e => simp [hf] at h
    | ok filtered =>
      simp only [hf] at h
      cases hg : buildGroupsAux [] filtered with
      | error e => simp [hg] at h
      | ok grouped =>
        simp only [hg] at h
        injection h with h
        exact ⟨m, filtered, grouped, rfl, rfl, hg, h.symm⟩

theorem get_meta_id {metaRows : List MetaCSVRow} {dataRows : List DataCSVRow}
    {id : Int} {m : YieldTableMeta}
    (h : get_yield_table_meta metaRows dataRows id = .ok m) : m.id = id := by
  unfold get_yield_table_meta at h
  cases hms : get_yield_tables_meta metaRows dataRows with
  | error e => simp [hms] at h
  | ok ms =>
    simp only [hms] at h
    cases hf : ms.find? (fun m' => m'.id == id) with
    | none => simp [hf] at h
    | some m' =>
      simp only [hf] at h
      injection h with h
      subst h
      simpa using List.find?_some hf

theorem get_class_eq {metaRows : List MetaCSVRow} {dataRows : List DataCSVRow}
    {id : Int} {t : YieldTable} (k : Int)
    (ht : get_yield_table metaRows dataRows id = .ok t) :
    get_yield_table_of_class metaRows dataRows id k =
      match t.data.yield_classes.find? (fun yc => yc.yield_class == (k : ℚ)) with
      | some yc => .ok yc.rows
      | none => .error (.valueError (classNotFoundMsg k id)) := by
  unfold get_yield_table_of_class
  rw [ht]

theorem hasClass_iff_find (t : YieldTable) (k : Int) :
    hasClass t k ↔
      (t.data.yield_classes.find?
        (fun yc => yc.yield_class == (k : ℚ))).isSome = true := by
  rw [List.find?_isSome]
  constructor
  · rintro ⟨yc, hmem, heq⟩
    exact ⟨yc, hmem, by simp [heq]⟩
  · rintro ⟨yc, hmem, heq⟩
    exact ⟨yc, hmem, by simpa using heq⟩

theorem interp_err_lower {metaRows : List MetaCSVRow}
    {dataRows : List DataCSVRow} {id : Int} {target : ℚ} {e : PyErr}
    (hl : get_yield_table_of_class metaRows dataRows id (lowerClass target) = .error e) :
    get_interpolated_yield_table metaRows dataRows id target = .error e := by
  unfold get_interpolated_yield_table
  rw [hl]

theorem interp_err_upper {metaRows : List MetaCSVRow}
    {dataRows : List DataCSVRow} {id : Int} {target : ℚ}
    {lrows : List YieldClassRow} {e : PyErr}
    (hl : get_yield_table_of_class metaRows dataRows id (lowerClass target) = .ok lrows)
    (hu : get_yield_table_of_class metaRows dataRows id (upperClass target) = .error e) :
    get_interpolated_yield_table metaRows dataRows id target = .error e := by
  unfold get_interpolated_yield_table
  rw [hl, hu]

/-! ### Claim theorems -/

/-- C4: for a table that loads successfully, `get_interpolated_yield_table`
fails if and only if the lower bracketing class or the lower bracketing
class plus one is not a tabulated yield class, and the `ValueError` it fails
with carries the missing class value and the table id; an integral target is
not special-cased, since the theorem holds for every rational target. -/
theorem c4_notfound_iff (metaRows : List MetaCSVRow)
    (dataRows : List DataCSVRow) (id : Int) (target : ℚ) (t : YieldTable)
    (ht : get_yield_table metaRows dataRows id = .ok t) :
    ((∃ yc, get_interpolated_yield_table metaRows dataRows id target = .ok yc) ↔
      hasClass t (lowerClass target) ∧ hasClass t (upperClass target)) ∧
    (¬ hasClass t (lowerClass target) →
      get_interpolated_yield_table metaRows dataRows id target =
        .error (.valueError (classNotFoundMsg (lowerClass target) id))) ∧
    (hasClass t (lowerClass target) → ¬ hasClass t (upperClass target) →
      get_interpolated_yield_table metaRows dataRows id target =
        .error (.valueError (classNotFoundMsg (upperClass target) id))) := by
  have hL := get_class_eq (lowerClass target) ht
  have hU := get_class_eq (upperClass target) ht
  cases hfL : t.data.yield_classes.find?
      (fun yc => yc.yield_class == ((lowerClass target : Int) : ℚ)) with
  | none =>
    have hcl : ¬ hasClass t (lowerClass target) := by
      rw [hasClass_iff_find, hfL]; simp
    simp only [hfL] at hL
    have hres := interp_err_lower hL
    refine ⟨⟨?_, ?_⟩, fun _ => hres, fun h1 _ => absurd h1 hcl⟩
    · rintro ⟨yc, hyc⟩
      rw [hres] at hyc
      simp at hyc
    · rintro ⟨h1, _⟩
      exact absurd h1 hcl
  | some ycL =>
    have hcl : hasClass t (lowerClass target) := by
      rw [hasClass_iff_find, hfL]; rfl
    simp only [hfL] at hL
    cases hfU : t.data.yield_classes.find?
        (fun yc => yc.yield_class == ((upperClass target : Int) : ℚ)) with
    | none =>
      have hcu : ¬ hasClass t (upperClass target) := by
        rw [hasClass_iff_find, hfU]; simp
      simp only [hfU] at hU
      have hres := interp_err_upper hL hU
      refine ⟨⟨?_, ?_⟩, fun hn => absurd hcl hn, fun _ _ => hres⟩
      · rintro ⟨yc, hyc⟩
        rw [hres] at hyc
        simp at hyc
      · rintro ⟨_, h2⟩
        exact absurd h2 hcu
    | some ycU =>
      have hcu : hasClass t (upperClass target) := by
        rw [hasClass_iff_find, hfU]; rfl
      simp only [hfU] at hU
      have hres := interp_rows_eq hL hU
      exact ⟨⟨fun _ => ⟨hcl, hcu⟩, fun _ => ⟨_, hres⟩⟩,
        fun hn => absurd hcl hn, fun _ hn => absurd hcu hn⟩

/-- Witness for C4 at the fixture table and target `2.5`: the fixture table
loads, and the theorem's conclusion is obtained at these concrete inputs. -/
theorem c4_witness :
    get_yield_table exMeta exData 1 = .ok exTable ∧
    (((∃ yc, get_interpolated_yield_table exMeta exData 1 fiveHalves = .ok yc) ↔
      hasClass exTable (lowerClass fiveHalves) ∧
        hasClass exTable (upperClass fiveHalves)) ∧
    (¬ hasClass exTable (lowerClass fiveHalves) →
      get_interpolated_yield_table exMeta exData 1 fiveHalves =
        .error (.valueError (classNotFoundMsg (lowerClass fiveHalves) 1))) ∧
    (hasClass exTable (lowerClass fiveHalves) →
      ¬ hasClass exTable (upperClass fiveHalves) →
      get_interpolated_yield_table exMeta exData 1 fiveHalves =
        .error (.valueError (classNotFoundMsg (upperClass fiveHalves) 1)))) :=
  ⟨rfl, c4_notfound_iff exMeta exData 1 fiveHalves exTable rfl⟩

/-- C9: when both bracketing classes resolve, `get_interpolated_yield_table`
pairs the lower and upper row sequences positionally, keeps exactly
`min` of the two lengths (trailing unmatched rows dropped), takes each
output row's `age` from the lower row unchanged, and returns the original
fractional target as the yield-class key with rows in pairing order. -/
theorem c9_positional_pairing (metaRows : List MetaCSVRow)
    (dataRows : List DataCSVRow) (id : Int) (target : ℚ)
    (lrows urows : List YieldClassRow)
    (hl : get_yield_table_of_class metaRows dataRows id (lowerClass target) = .ok lrows)
    (hu : get_yield_table_of_class metaRows dataRows id (upperClass target) = .ok urows) :
    ∃ yc, get_interpolated_yield_table metaRows dataRows id target = .ok yc ∧
      yc.yield_class = target ∧
      yc.rows = List.zipWith (interpRow target (lowerClass target) (upperClass target))
        lrows urows ∧
      yc.rows.length = min lrows.length urows.length ∧
      ∀ (i : Nat) (h1 : i < yc.rows.length) (h2 : i < lrows.length),
        (yc.rows.get ⟨i, h1⟩).age = (lrows.get ⟨i, h2⟩).age := by
  refine ⟨_, interp_rows_eq hl hu, rfl, rfl, ?_, ?_⟩
  · exact List.length_zipWith
      (interpRow target (lowerClass target) (upperClass target)) lrows urows
  · intro i h1 h2
    have hlen := List.length_zipWith
      (interpRow target (lowerClass target) (upperClass target)) lrows urows
    have h3 : i < urows.length := by
      rw [hlen] at h1
      exact lt_of_lt_of_le h1 (min_le_right _ _)
    rw [List.get_eq_getElem, List.get_eq_getElem, List.getElem_zipWith]
    rfl

/-- Witness for C9 at the fixture table and target `6.5`. -/
theorem c9_witness :
    get_yield_table_of_class exMeta exData 1 (lowerClass halfThirteen) = .ok exLowerRows ∧
    get_yield_table_of_class exMeta exData 1 (upperClass halfThirteen) = .ok exUpperRows ∧
    ∃ yc, get_interpolated_yield_table exMeta exData 1 halfThirteen = .ok yc ∧
      yc.yield_class = halfThirteen ∧
      yc.rows = List.zipWith
        (interpRow halfThirteen (lowerClass halfThirteen) (upperClass halfThirteen))
        exLowerRows exUpperRows ∧
      yc.rows.length = min exLowerRows.length exUpperRows.length ∧
      ∀ (i : Nat) (h1 : i < yc.rows.length) (h2 : i < exLowerRows.length),
        (yc.rows.get ⟨i, h1⟩).age = (exLowerRows.get ⟨i, h2⟩).age :=
  ⟨rfl, rfl,
    c9_positional_pairing exMeta exData 1 halfThirteen exLowerRows exUpperRows rfl rfl⟩

/-- C6: a successfully loaded table has the requested id in its metadata,
and every row of every yield class was built from a data record whose id
cell parses to the requested id. -/
theorem c6_table_id_invariant (metaRows : List MetaCSVRow)
    (dataRows : List DataCSVRow) (id : Int) (t : YieldTable)
    (h : get_yield_table metaRows dataRows id = .ok t) :
    t.meta.id = id ∧
      ∀ yc ∈ t.data.yield_classes, ∀ row ∈ yc.rows,
        ∃ r ∈ dataRows, pyInt r.id = some id ∧ buildRow r = .ok row := by
  obtain ⟨m, filtered, grouped, hm, hf, hg, hteq⟩ := get_yield_table_ok h
  subst hteq
  refine ⟨get_meta_id hm, ?_⟩
  intro yc hyc row hrow
  simp only [List.mem_map] at hyc
  obtain ⟨p, hp, rfl⟩ := hyc
  obtain ⟨⟨ks, hks, hkeys⟩, hrows⟩ := buildGroupsAux_spec filtered [] grouped hg
  simp only [List.map_nil, List.nil_append] at hkeys
  have hnd : (grouped.map Prod.fst).Nodup := by
    rw [hkeys]
    exact (firstSeenFrom_nodup ks []).1
  have hpr : groupRows grouped p.1 = p.2 := groupRows_of_mem grouped hnd p hp
  obtain ⟨rs, hrs, hgr⟩ := hrows p.1
  rw [hpr] at hgr
  simp only [groupRows, List.nil_append] at hgr
  rw [show (⟨p.1, p.2⟩ : YieldClass).rows = p.2 from rfl, hgr] at hrow
  obtain ⟨r, hr, hbr⟩ := buildRowsFor_mem hrs row hrow
  obtain ⟨hrd, hid⟩ := filterById_mem hf r hr
  exact ⟨r, hrd, hid, hbr⟩

/-- Witness for C6 at the fixture table. -/
theorem c6_witness :
    get_yield_table exMeta exData 1 = .ok exTable ∧
    (exTable.meta.id = 1 ∧
      ∀ yc ∈ exTable.data.yield_classes, ∀ row ∈ yc.rows,
        ∃ r ∈ exData, pyInt r.id = some 1 ∧ buildRow r = .ok row) :=
  ⟨rfl, c6_table_id_invariant exMeta exData 1 exTable rfl⟩

/-- C7: the yield-class key is the integer parse of the cell when it
succeeds and otherwise its float parse; the key sequence of a loaded table
has no duplicates and appears in first-seen order of the source keys; and
the rows of each class are exactly the rows built, in source order and with
duplicates preserved, from the filtered records carrying that key. -/
theorem c7_grouping_invariant (metaRows : List MetaCSVRow)
    (dataRows : List DataCSVRow) (id : Int) (t : YieldTable)
    (h : get_yield_table metaRows dataRows id = .ok t) :
    (∀ c n, pyInt c = some n → parseYieldClass c = .ok ((n : Int) : ℚ)) ∧
    (∀ c q, pyInt c = none → pyFloat c = some q → parseYieldClass c = .ok q) ∧
    (t.data.yield_classes.map (fun yc => yc.yield_class)).Nodup ∧
    ∃ filtered ks,
      filterById dataRows id = .ok filtered ∧
      keyList filtered = .ok ks ∧
      t.data.yield_classes.map (fun yc => yc.yield_class) = firstSeenFrom [] ks ∧
      ∀ yc ∈ t.data.yield_classes,
        buildRowsFor filtered yc.yield_class = .ok yc.rows := by
  obtain ⟨m, filtered, grouped, hm, hf, hg, hteq⟩ := get_yield_table_ok h
  subst hteq
  obtain ⟨⟨ks, hks, hkeys⟩, hrows⟩ := buildGroupsAux_spec filtered [] grouped hg
  simp only [List.map_nil, List.nil_append] at hkeys
  have hnd : (grouped.map Prod.fst).Nodup := by
    rw [hkeys]
    exact (firstSeenFrom_nodup ks []).1
  have hmapeq : (grouped.map (fun p => (⟨p.1, p.2⟩ : YieldClass))).map
      (fun yc => yc.yield_class) = grouped.map Prod.fst := by
    rw [List.map_map]
    rfl
  refine ⟨?_, ?_, ?_, filtered, ks, hf, hks, ?_, ?_⟩
  · intro c n hc
    unfold parseYieldClass
    rw [hc]
  · intro c q hc hq
    unfold parseYieldClass
    rw [hc, hq]
  · rw [show (List.map (fun yc => yc.yield_class)
      (List.map (fun p => ({ yield_class := p.1, rows := p.2 } : YieldClass)) grouped)) =
      grouped.map Prod.fst from hmapeq]
    exact hnd
  · rw [show (List.map (fun yc => yc.yield_class)
      (List.map (fun p => ({ yield_class := p.1, rows := p.2 } : YieldClass)) grouped)) =
      grouped.map Prod.fst from hmapeq]
    exact hkeys
  · intro yc hyc
    simp only [List.mem_map] at hyc
    obtain ⟨p, hp, rfl⟩ := hyc
    obtain ⟨rs, hrs, hgr⟩ := hrows p.1
    have hpr : groupRows grouped p.1 = p.2 := groupRows_of_mem grouped hnd p hp
    rw [hpr] at hgr
    simp only [groupRows, List.nil_append] at hgr
    rw [show (⟨p.1, p.2⟩ : YieldClass).yield_class = p.1 from rfl,
      show (⟨p.1, p.2⟩ : YieldClass).rows = p.2 from rfl, hgr]
    exact hrs

/-- Witness for C7 at the fixture table. -/
theorem c7_witness :
    get_yield_table exMeta exData 1 = .ok exTable ∧
    ((∀ c n, pyInt c = some n → parseYieldClass c = .ok ((n : Int) : ℚ)) ∧
    (∀ c q, pyInt c = none → pyFloat c = some q → parseYieldClass c = .ok q) ∧
    (exTable.data.yield_classes.map (fun yc => yc.yield_class)).Nodup ∧
    ∃ filtered ks,
      filterById exData 1 = .ok filtered ∧
      keyList filtered = .ok ks ∧
      exTable.data.yield_classes.map (fun yc => yc.yield_class) =
        firstSeenFrom [] ks ∧
      ∀ yc ∈ exTable.data.yield_classes,
        buildRowsFor filtered yc.yield_class = .ok yc.rows) :=
  ⟨rfl, c7_grouping_invariant exMeta exData 1 exTable rfl⟩

/-- C8: `get_yield_table_meta` returns exactly the first element of
`get_yield_tables_meta` whose id matches, and fails with the not-found
`ValueError` carrying the id when no element matches. -/
theorem c8_get_meta_first_match (metaRows : List MetaCSVRow)
    (dataRows : List DataCSVRow) (id : Int) (ms : List YieldTableMeta)
    (h : get_yield_tables_meta metaRows dataRows = .ok ms) :
    (∀ m, ms.find? (fun m' => m'.id == id) = some m →
      get_yield_table_meta metaRows dataRows id = .ok m ∧ m.id = id ∧
      ∃ pre post, ms = pre ++ m :: post ∧ ∀ m' ∈ pre, m'.id ≠ id) ∧
    (ms.find? (fun m' => m'.id == id) = none →
      (∀ m ∈ ms, m.id ≠ id) ∧
      get_yield_table_meta metaRows dataRows id =
        .error (.valueError (tableNotFoundMsg id))) := by
  constructor
  · intro m hfind
    refine ⟨?_, ?_, ?_⟩
    · unfold get_yield_table_meta
      simp only [h, hfind]
    · simpa using List.find?_some hfind
    · obtain ⟨hpb, pre, post, heq, hpre⟩ := List.find?_eq_some.mp hfind
      refine ⟨pre, post, heq, ?_⟩
      intro m' hm'
      simpa using hpre m' hm'
  · intro hfind
    constructor
    · intro m hm heq
      have hne := List.find?_eq_none.mp hfind m hm
      simp [heq] at hne
    · unfold get_yield_table_meta
      simp only [h, hfind]

/-- Witness for C8 at the fixture metadata and id 1. -/
theorem c8_witness :
    get_yield_tables_meta exMeta exData = .ok exMetas ∧
    exMetas.find? (fun m' => m'.id == 1) = some exMeta1 ∧
    (get_yield_table_meta exMeta exData 1 = .ok exMeta1 ∧ exMeta1.id = 1 ∧
      ∃ pre post, exMetas = pre ++ exMeta1 :: post ∧ ∀ m' ∈ pre, m'.id ≠ 1) :=
  ⟨rfl, rfl, (c8_get_meta_first_match exMeta exData 1 exMetas rfl).1 exMeta1 rfl⟩

/-- C2 counterexample: at the negative fractional target `-0.5` the code's
lower bracketing class (`int(target)`, truncation toward zero) is `0` with
upper class `1`, while the floor of `-0.5` is `-1` — so the claim that the
lower class is always `floor(target)` (giving `-1` and `0` here) is false. -/
theorem c2_counterexample :
    lowerClass negHalf = 0 ∧ upperClass negHalf = 1 ∧
    ⌊negHalf⌋ = -1 ∧ (0 : Int) ≠ -1 := by
  refine ⟨by decide, by decide, ?_, by decide⟩
  rw [negHalf_eq]
  norm_num

/-- C2 (amended): the lower bracketing class of
`get_interpolated_yield_table` is Python `int(target)` — truncation toward
zero — which agrees with `floor(target)` for every non-negative target, and
the upper class is the lower class plus one; for the target `-0.5` the
classes are `0` and `1`, not `-1` and `0`. -/
theorem c2_trunc_bracketing (target : ℚ) (h : 0 ≤ target) :
    lowerClass target = pyTrunc target ∧
    lowerClass target = ⌊target⌋ ∧
    upperClass target = ⌊target⌋ + 1 ∧
    lowerClass negHalf = 0 ∧ upperClass negHalf = 1 := by
  refine ⟨rfl, pyTrunc_eq_floor_of_nonneg target h, ?_, by decide, by decide⟩
  unfold upperClass
  rw [show lowerClass target = ⌊target⌋ from pyTrunc_eq_floor_of_nonneg target h]

/-- Witness for C2 (amended) at the non-negative target `6.5`. -/
theorem c2_witness :
    (0 : ℚ) ≤ halfThirteen ∧
    (lowerClass halfThirteen = pyTrunc halfThirteen ∧
     lowerClass halfThirteen = ⌊halfThirteen⌋ ∧
     upperClass halfThirteen = ⌊halfThirteen⌋ + 1 ∧
     lowerClass negHalf = 0 ∧ upperClass negHalf = 1) :=
  ⟨by decide, c2_trunc_bracketing halfThirteen (by decide)⟩

/-- C3 counterexample: a metadata record whose `yield_class_step` cell is
non-empty but non-numeric makes `get_yield_tables_meta` fail with the
`float()` `ValueError` instead of returning the row with an absent field. -/
theorem c3_counterexample :
    truthy badStepMetaRow.yield_class_step = true ∧
    pyFloat badStepMetaRow.yield_class_step = none ∧
    get_yield_tables_meta [badStepMetaRow] [] =
      .error (.valueError floatParseMsg) :=
  ⟨rfl, rfl, rfl⟩

/-- C3 (amended): each of the two optional step cells is handled
independently — an empty or missing `yield_class_step` or `age_step` cell
yields an absent value for that field without an error, and a record whose
two step cells each either parse or are empty builds successfully with
exactly those optional values (so `list_meta` returns it); but a non-empty
`yield_class_step` cell that does not parse raises the `float()`
`ValueError` and a non-empty `age_step` cell that does not parse raises the
`int()` `ValueError`, failing the build and hence `list_meta` — the guard
in the source is truthiness of the raw string, not parseability. -/
theorem c3_empty_step_absent (dataRows : List DataCSVRow) (r : MetaCSVRow)
    (i : Int) (hid : pyInt r.id = some i) :
    (∀ c, truthy c = false → parseOptFloatCell c = .ok none) ∧
    (∀ c, truthy c = false → parseOptIntCell c = .ok none) ∧
    (∀ c, truthy c = true → pyFloat c = none →
      parseOptFloatCell c = .error (.valueError floatParseMsg)) ∧
    (∀ c, truthy c = true → pyInt c = none →
      parseOptIntCell c = .error (.valueError intParseMsg)) ∧
    (∀ ycs ags, parseOptFloatCell r.yield_class_step = .ok ycs →
      parseOptIntCell r.age_step = .ok ags →
      ∃ m, buildMeta dataRows r = .ok m ∧
        m.yield_class_step = ycs ∧ m.age_step = ags ∧
        get_yield_tables_meta [r] dataRows = .ok [m]) ∧
    (∀ e, parseOptFloatCell r.yield_class_step = .error e →
      buildMeta dataRows r = .error e ∧
      get_yield_tables_meta [r] dataRows = .error e) ∧
    (∀ ycs e, parseOptFloatCell r.yield_class_step = .ok ycs →
      parseOptIntCell r.age_step = .error e →
      buildMeta dataRows r = .error e ∧
      get_yield_tables_meta [r] dataRows = .error e) := by
  have hlifterr : ∀ e, buildMeta dataRows r = .error e →
      get_yield_tables_meta [r] dataRows = .error e := by
    intro e hm
    simp only [get_yield_tables_meta, hm]
  refine ⟨?_, ?_, ?_, ?_, ?_, ?_, ?_⟩
  · intro c h
    simp [parseOptFloatCell, h]
  · intro c h
    simp [parseOptIntCell, h]
  · intro c h1 h2
    simp [parseOptFloatCell, h1, h2]
  · intro c h1 h2
    simp [parseOptIntCell, h1, h2]
  · intro ycs ags h1 h2
    have hm : buildMeta dataRows r =
        .ok { id := i, title := r.title,
              country_codes := parseCountryCodes r.country_codes,
              type := r.type, source := r.source, link := r.link,
              yield_class_step := ycs, age_step := ags,
              tree_type := r.tree_type,
              available_columns := find_available_columns dataRows i } := by
      simp only [buildMeta, hid, h1, h2]
    exact ⟨_, hm, rfl, rfl, by simp only [get_yield_tables_meta, hm]⟩
  · intro e h1
    have hm : buildMeta dataRows r = .error e := by
      simp only [buildMeta, hid, h1]
    exact ⟨hm, hlifterr e hm⟩
  · intro ycs e h1 h2
    have hm : buildMeta dataRows r = .error e := by
      simp only [buildMeta, hid, h1, h2]
    exact ⟨hm, hlifterr e hm⟩

/-- Witness for C3 (amended): a record with only `yield_class_step` empty
builds with that field absent and `age_step` parsed, a record with both
step cells empty builds with both fields absent, a non-numeric non-empty
`yield_class_step` cell fails with the `float()` error and a non-numeric
non-empty `age_step` cell with the `int()` error, in each case also through
`get_yield_tables_meta`. -/
theorem c3_witness :
    pyInt mixedStepMetaRow.id = some 11 ∧
    truthy mixedStepMetaRow.yield_class_step = false ∧
    (∃ m, buildMeta [] mixedStepMetaRow = .ok m ∧
      m.yield_class_step = none ∧ m.age_step = some 10 ∧
      get_yield_tables_meta [mixedStepMetaRow] [] = .ok [m]) ∧
    (∃ m, buildMeta [] emptyStepMetaRow = .ok m ∧
      m.yield_class_step = none ∧ m.age_step = none ∧
      get_yield_tables_meta [emptyStepMetaRow] [] = .ok [m]) ∧
    (buildMeta [] badStepMetaRow = .error (.valueError floatParseMsg) ∧
      get_yield_tables_meta [badStepMetaRow] [] =
        .error (.valueError floatParseMsg)) ∧
    (buildMeta [] badAgeStepMetaRow = .error (.valueError intParseMsg) ∧
      get_yield_tables_meta [badAgeStepMetaRow] [] =
        .error (.valueError intParseMsg)) :=
  ⟨rfl, rfl,
   (c3_empty_step_absent [] mixedStepMetaRow 11 rfl).2.2.2.2.1
     none (some 10) rfl rfl,
   (c3_empty_step_absent [] emptyStepMetaRow 9 rfl).2.2.2.2.1
     none none rfl rfl,
   (c3_empty_step_absent [] badStepMetaRow 7 rfl).2.2.2.2.2.1
     (.valueError floatParseMsg) rfl,
   (c3_empty_step_absent [] badAgeStepMetaRow 12 rfl).2.2.2.2.2.2
     (some ((1 : Int) : ℚ)) (.valueError intParseMsg) rfl rfl⟩

/-- C10: the three public failure modes — unknown table id, unknown
bracketing yield class, and a malformed `age` cell during table loading —
are all the same `ValueError` kind, and the request handler maps the
malformed-age failure to exactly the same not-found response as a genuinely
missing table id. -/
theorem c10_uniform_value_error :
    get_yield_table_meta exMeta exData 999 =
      .error (.valueError (tableNotFoundMsg 999)) ∧
    get_interpolated_yield_table exMeta exData 1 fiveHalves =
      .error (.valueError (classNotFoundMsg 2 1)) ∧
    get_yield_table exMeta dataBadAge 1 = .error (.valueError intParseMsg) ∧
    read_yield_table_data exMeta dataBadAge 1 = .notFound (apiTableMsg 1) ∧
    read_yield_table_data [] exData 1 = .notFound (apiTableMsg 1) ∧
    read_yield_table_data exMeta dataBadAge 1 =
      read_yield_table_data [] exData 1 :=
  ⟨rfl, rfl, rfl, rfl, rfl, rfl⟩

theorem npInterp_strict {x : ℚ} {l u : Int} {a b : ℚ}
    (h1 : ¬ x ≤ (l : ℚ)) (h2 : ¬ (u : ℚ) ≤ x) :
    npInterp x l u (some a) (some b) =
      some (a + (b - a) / ((u : ℚ) - (l : ℚ)) * (x - (l : ℚ))) := by
  unfold npInterp
  rw [if_neg h1, if_neg h2]

/-- C5: for a target strictly between the two bracketing classes, every
interpolated measurement value whose lower and upper endpoints are both
present lies between them inclusive; concretely, the fixture table gives
`get_interpolated(1, 6.5)` dominant heights `5.5` and `8.5` in rows 0
and 1. -/
theorem c5_interpolation_bounds :
    (∀ (metaRows : List MetaCSVRow) (dataRows : List DataCSVRow) (id : Int)
      (target : ℚ) (yc : YieldClass) (lrows urows : List YieldClassRow),
      ((lowerClass target : Int) : ℚ) < target →
      target < ((upperClass target : Int) : ℚ) →
      get_yield_table_of_class metaRows dataRows id (lowerClass target) = .ok lrows →
      get_yield_table_of_class metaRows dataRows id (upperClass target) = .ok urows →
      get_interpolated_yield_table metaRows dataRows id target = .ok yc →
      ∀ (i : Nat) (h1 : i < yc.rows.length) (h2 : i < lrows.length)
        (h3 : i < urows.length) (f : YieldClassRow → Option ℚ),
        f ∈ measurementGetters →
        ∀ a b, f (lrows.get ⟨i, h2⟩) = some a → f (urows.get ⟨i, h3⟩) = some b →
        ∃ v, f (yc.rows.get ⟨i, h1⟩) = some v ∧ min a b ≤ v ∧ v ≤ max a b) ∧
    (get_interpolated_yield_table exMeta exData 1 halfThirteen).toOption.map
      (fun yc => yc.rows.map (fun r => r.dominant_height)) =
      some [some (11 / 2), some (17 / 2)] := by
  constructor
  · intro metaRows dataRows id target yc lrows urows hlt hut hl hu hok
    have heq := interp_rows_eq hl hu
    rw [hok] at heq
    injection heq with heq
    subst heq
    intro i h1 h2 h3 f hf a b ha hb
    have hz : ((⟨target,
        List.zipWith (interpRow target (lowerClass target) (upperClass target))
          lrows urows⟩ : YieldClass).rows.get ⟨i, h1⟩) =
        interpRow target (lowerClass target) (upperClass target)
          (lrows.get ⟨i, h2⟩) (urows.get ⟨i, h3⟩) := by
      rw [List.get_eq_getElem, List.get_eq_getElem, List.get_eq_getElem,
        List.getElem_zipWith]
    rw [hz]
    simp only [measurementGetters, List.mem_cons, List.not_mem_nil,
      or_false] at hf
    rcases hf with rfl|rfl|rfl|rfl|rfl|rfl|rfl|rfl|rfl|rfl|rfl <;>
      (simp only [interpRow]
       rw [ha, hb]
       exact npInterp_some_between hlt hut)
  · have e1 : npInterp halfThirteen 6 7 (some ((5 : Int) : ℚ))
        (some ((6 : Int) : ℚ)) = some (11 / 2) := by
      rw [npInterp_strict (by decide) (by decide)]
      congr 1
      rw [halfThirteen_eq]
      push_cast
      norm_num
    have e2 : npInterp halfThirteen 6 7 (some ((8 : Int) : ℚ))
        (some ((9 : Int) : ℚ)) = some (17 / 2) := by
      rw [npInterp_strict (by decide) (by decide)]
      congr 1
      rw [halfThirteen_eq]
      push_cast
      norm_num
    have h2 : (get_interpolated_yield_table exMeta exData 1
        halfThirteen).toOption.map
        (fun yc => yc.rows.map (fun r => r.dominant_height)) =
        some [npInterp halfThirteen 6 7 (some ((5 : Int) : ℚ))
            (some ((6 : Int) : ℚ)),
          npInterp halfThirteen 6 7 (some ((8 : Int) : ℚ))
            (some ((9 : Int) : ℚ))] := rfl
    rw [h2, e1, e2]

/-- Witness for C5 at the fixture table, target `6.5`, row 0 and the
`dominant_height` field. -/
theorem c5_witness :
    ((lowerClass halfThirteen : Int) : ℚ) < halfThirteen ∧
    halfThirteen < ((upperClass halfThirteen : Int) : ℚ) ∧
    get_yield_table_of_class exMeta exData 1 (lowerClass halfThirteen) =
      .ok exLowerRows ∧
    get_yield_table_of_class exMeta exData 1 (upperClass halfThirteen) =
      .ok exUpperRows ∧
    get_interpolated_yield_table exMeta exData 1 halfThirteen = .ok exInterp ∧
    YieldClassRow.dominant_height ∈ measurementGetters ∧
    YieldClassRow.dominant_height (exLowerRows.get ⟨0, by decide⟩) =
      some ((5 : Int) : ℚ) ∧
    YieldClassRow.dominant_height (exUpperRows.get ⟨0, by decide⟩) =
      some ((6 : Int) : ℚ) ∧
    ∃ v, YieldClassRow.dominant_height (exInterp.rows.get ⟨0, by decide⟩) =
        some v ∧
      min ((5 : Int) : ℚ) ((6 : Int) : ℚ) ≤ v ∧
      v ≤ max ((5 : Int) : ℚ) ((6 : Int) : ℚ) :=
  ⟨by decide, by decide, rfl, rfl, rfl, List.mem_cons_self _ _, rfl, rfl,
    c5_interpolation_bounds.1 exMeta exData 1 halfThirteen exInterp
      exLowerRows exUpperRows (by decide) (by decide) rfl rfl rfl 0
      (by decide) (by decide) (by decide) YieldClassRow.dominant_height
      (List.mem_cons_self _ _) ((5 : Int) : ℚ) ((6 : Int) : ℚ) rfl rfl⟩

/-- C1 counterexample: with the class-6 record's `dominant_height` cell
empty, `get_interpolated_yield_table` at target `6.5` yields an absent
(`nan`) dominant height, not the `9/2` that two-point interpolation of the
defaulted `0.0` lower value against the upper value `9` would give — the
`0.0` defaulting claimed for all ten fields happens for none of them except
`current_annual_increment`. -/
theorem c1_counterexample :
    (get_interpolated_yield_table exMeta cData 1 halfThirteen).toOption.map
      (fun yc => yc.rows.map (fun r => r.dominant_height)) = some [none] ∧
    npInterp halfThirteen 6 7 (some (safe_float none)) (some ((9 : Int) : ℚ)) =
      some (9 / 2) ∧
    some [(none : Option ℚ)] ≠ some [some (9 / 2)] := by
  refine ⟨rfl, ?_, by simp⟩
  rw [show safe_float none = (0 : ℚ) from rfl,
    npInterp_strict (by decide) (by decide)]
  congr 1
  rw [halfThirteen_eq]
  push_cast
  norm_num

/-- C1 (amended): in each interpolated row pair only
`current_annual_increment` is defaulted through `safe_float`
(absent ↦ `0.0`); each of the other ten measurement fields is passed to the
interpolation as is, and an absent value among them yields an absent
(`nan`) output for a strictly interior target — no exception either way. -/
theorem c1_absent_defaults (target : ℚ) (l u : Int)
    (lrow urow : YieldClassRow) :
    ((interpRow target l u lrow urow).current_annual_increment =
      npInterp target l u (some (safe_float lrow.current_annual_increment))
        (some (safe_float urow.current_annual_increment))) ∧
    safe_float none = 0 ∧
    (∀ f ∈ rawMeasurementGetters,
      f (interpRow target l u lrow urow) = npInterp target l u (f lrow) (f urow)) ∧
    (∀ f ∈ rawMeasurementGetters, (l : ℚ) < target → target < (u : ℚ) →
      f lrow = none → f (interpRow target l u lrow urow) = none) := by
  refine ⟨rfl, rfl, ?_, ?_⟩
  · intro f hf
    simp only [rawMeasurementGetters, List.mem_cons, List.not_mem_nil,
      or_false] at hf
    rcases hf with rfl|rfl|rfl|rfl|rfl|rfl|rfl|rfl|rfl|rfl <;> rfl
  · intro f hf h1 h2 hnone
    simp only [rawMeasurementGetters, List.mem_cons, List.not_mem_nil,
      or_false] at hf
    rcases hf with rfl|rfl|rfl|rfl|rfl|rfl|rfl|rfl|rfl|rfl <;>
      (simp only [interpRow]
       rw [hnone]
       exact npInterp_none_left h1 h2)

/-- Witness for C1 (amended) at target `6.5`, classes 6 and 7, and a row
pair whose lower `dominant_height` is absent. -/
theorem c1_witness :
    ((interpRow halfThirteen 6 7 wRow6 wRow7).current_annual_increment =
      npInterp halfThirteen 6 7
        (some (safe_float wRow6.current_annual_increment))
        (some (safe_float wRow7.current_annual_increment))) ∧
    safe_float none = 0 ∧
    YieldClassRow.dominant_height ∈ rawMeasurementGetters ∧
    ((6 : Int) : ℚ) < halfThirteen ∧ halfThirteen < ((7 : Int) : ℚ) ∧
    wRow6.dominant_height = none ∧
    YieldClassRow.dominant_height (interpRow halfThirteen 6 7 wRow6 wRow7) =
      none := by
  obtain ⟨hc, hs, hraw, hnone⟩ := c1_absent_defaults halfThirteen 6 7 wRow6 wRow7
  exact ⟨hc, hs, List.mem_cons_self _ _, by decide, by decide, rfl,
    hnone YieldClassRow.dominant_height (List.mem_cons_self _ _) (by decide)
      (by decide) rfl⟩
